import Mathlib

/-!
# Commit Metric Delta Engine — verification development

Shallow embedding of the readability replication package's core pipeline
(`src/4_download_commits.py`, `src/4_download_commits_2.py`,
`src/5_get_analysis.py`) and proofs about it.

Conventions:
* Python floats are modelled as rationals (`ℚ`); machine rounding is outside
  the model.
* A Python value that may be `None` (a failed analysis, a missing file) is an
  `Option`.
* A source text is abstracted to the pair of its parse outcome (an optional
  syntax tree) and its lexical line profile, since the scripts consume a text
  only through `ast.parse` / the lexical scanner.
* The metric library (radon) is external to the repository; its per-snapshot
  computations are modelled from the spec (each such definition's doc comment
  starts with `Modelled from the spec:`).  Everything else is translated from
  the repository sources.
-/

/-! ## Python AST fragment

Statements and expressions as produced by `ast.parse`, restricted to the
constructs the analyzed scripts inspect.  Statement bodies are a dedicated
list type (`StmtList`) so that structural recursion stays mutual and
first-class; `ast.iter_child_nodes` flattens body lists, so the children of a
`fnDef` / `classDef` node are the body statements themselves. -/

mutual
inductive PyExpr where
  | strLit (s : String)
  | numLit (n : Int)
  | name (id : String)
  | listLit (elts : ExprList)
  | unaryOp (op : String) (arg : PyExpr)
  | binOp (op : String) (lhs rhs : PyExpr)
  | boolOp (op : String) (vals : ExprList)
  | compare (op : String) (lhs rhs : PyExpr)
inductive ExprList where
  | nil
  | cons (e : PyExpr) (rest : ExprList)
end

mutual
inductive PyStmt where
  | exprStmt (e : PyExpr)
  | assign (tgt : String) (e : PyExpr)
  | ret (e : PyExpr)
  | fnDef (nm : String) (args : List String) (body : StmtList)
  | classDef (nm : String) (body : StmtList)
  | ifStmt (cond : PyExpr) (thn els : StmtList)
  | whileStmt (cond : PyExpr) (body : StmtList)
  | forStmt (tgt : String) (iter : PyExpr) (body : StmtList)
inductive StmtList where
  | nil
  | cons (s : PyStmt) (rest : StmtList)
end

/-- A parsed module (`ast.Module`). -/
structure PyModule where
  body : StmtList

/-- Node kinds distinguished by `count_definitions`:
`ast.FunctionDef`, `ast.ClassDef`, `ast.Module`, anything else. -/
inductive NodeKind where
  | module
  | functionDef
  | classDef
  | other
deriving DecidableEq

/-- Truthiness of a docstring under `if ast.get_docstring(node):` —
`ast.get_docstring` returns the *cleaned* docstring
(`inspect.cleandoc`), which is the empty (falsy) string exactly when the
literal contains no non-whitespace character. -/
def docTruthy (s : String) : Bool := s.data.any (fun c => !c.isWhitespace)

/-- The docstring test of 4_download_commits.py at the block level:
`if ast.get_docstring(node):` holds iff the first body statement is a
standalone string literal whose cleaned content is non-empty (an
empty or whitespace-only docstring is falsy and is not counted). -/
def blockDoc : StmtList → Bool
  | .cons (.exprStmt (.strLit s)) _ => docTruthy s
  | _ => false

/-- The docstring predicate with the truthiness condition dropped: the first
body statement is *any* standalone string literal.  (Kept for comparison
with `blockDoc`: the source counts strictly fewer nodes.) -/
def firstStmtIsStrLit : StmtList → Bool
  | .cons (.exprStmt (.strLit _)) _ => true
  | _ => false

/-- One entry of the walk over the tree: the node's kind, the kind of its
immediate syntactic parent (as recorded by the parent dict built in
`count_definitions`'s pre-pass), and whether the node bears a docstring. -/
structure WalkEntry where
  kind : NodeKind
  parent : NodeKind
  hasDoc : Bool

/-! `ast.walk` enumerates every node; the pre-pass
`for node in ast.walk(tree): for child in ast.iter_child_nodes(node):
parents[child] = node` records each node's immediate parent.  The walk below
produces, for every statement node, its kind / parent-kind / docstring flag.
(`ast.walk` is breadth-first; the counts taken from the entries are
order-independent, so a depth-first enumeration is an equivalent model.
Expression nodes never carry definitions and are omitted from the entry
list for the same reason.) -/

mutual
def walkStmt (pk : NodeKind) : PyStmt → List WalkEntry
  | .exprStmt _ => [⟨.other, pk, false⟩]
  | .assign _ _ => [⟨.other, pk, false⟩]
  | .ret _ => [⟨.other, pk, false⟩]
  | .fnDef _ _ b => ⟨.functionDef, pk, blockDoc b⟩ :: walkBlock .functionDef b
  | .classDef _ b => ⟨.classDef, pk, blockDoc b⟩ :: walkBlock .classDef b
  | .ifStmt _ t e => ⟨.other, pk, false⟩ :: (walkBlock .other t ++ walkBlock .other e)
  | .whileStmt _ b => ⟨.other, pk, false⟩ :: walkBlock .other b
  | .forStmt _ _ b => ⟨.other, pk, false⟩ :: walkBlock .other b
def walkBlock (pk : NodeKind) : StmtList → List WalkEntry
  | .nil => []
  | .cons s r => walkStmt pk s ++ walkBlock pk r
end

/-- All walk entries of a module; the module node itself heads the list (its
parent defaults to `other`: `parents.get(tree)` is absent from the dict). -/
def moduleEntries (m : PyModule) : List WalkEntry :=
  ⟨.module, .other, blockDoc m.body⟩ :: walkBlock .module m.body

/-- `count_definitions` (4_download_commits.py):
build the parent lookup in a pre-pass, then count function definitions,
class definitions, methods (function definitions whose recorded parent is a
class definition) and docstring-bearing module/function/class nodes.
Returns `(n_functions, n_classes, n_methods, n_docstrings)`. -/
def count_definitions (m : PyModule) : ℕ × ℕ × ℕ × ℕ :=
  let es := moduleEntries m
  ( es.countP (fun e => e.kind = .functionDef)
  , es.countP (fun e => e.kind = .classDef)
  , es.countP (fun e => e.kind = .functionDef ∧ e.parent = .classDef)
  , es.countP (fun e =>
      (e.kind = .module ∨ e.kind = .functionDef ∨ e.kind = .classDef) ∧ e.hasDoc = true) )

/-! Direct structural characterizations of the four counts, phrased the way
the spec states them (independent of the walk/parent-dict mechanism). -/

mutual
def fnCountS : PyStmt → ℕ
  | .exprStmt _ => 0
  | .assign _ _ => 0
  | .ret _ => 0
  | .fnDef _ _ b => 1 + fnCountB b
  | .classDef _ b => fnCountB b
  | .ifStmt _ t e => fnCountB t + fnCountB e
  | .whileStmt _ b => fnCountB b
  | .forStmt _ _ b => fnCountB b
def fnCountB : StmtList → ℕ
  | .nil => 0
  | .cons s r => fnCountS s + fnCountB r
end

mutual
def clsCountS : PyStmt → ℕ
  | .exprStmt _ => 0
  | .assign _ _ => 0
  | .ret _ => 0
  | .fnDef _ _ b => clsCountB b
  | .classDef _ b => 1 + clsCountB b
  | .ifStmt _ t e => clsCountB t + clsCountB e
  | .whileStmt _ b => clsCountB b
  | .forStmt _ _ b => clsCountB b
def clsCountB : StmtList → ℕ
  | .nil => 0
  | .cons s r => clsCountS s + clsCountB r
end

mutual
/-- Methods: function definitions whose immediate syntactic parent is a class
definition.  The flag records whether the current statement's parent is a
`classDef` node. -/
def methCountS : Bool → PyStmt → ℕ
  | _, .exprStmt _ => 0
  | _, .assign _ _ => 0
  | _, .ret _ => 0
  | pc, .fnDef _ _ b => (if pc then 1 else 0) + methCountB false b
  | _, .classDef _ b => methCountB true b
  | _, .ifStmt _ t e => methCountB false t + methCountB false e
  | _, .whileStmt _ b => methCountB false b
  | _, .forStmt _ _ b => methCountB false b
def methCountB : Bool → StmtList → ℕ
  | _, .nil => 0
  | pc, .cons s r => methCountS pc s + methCountB pc r
end

mutual
def docCountS : PyStmt → ℕ
  | .exprStmt _ => 0
  | .assign _ _ => 0
  | .ret _ => 0
  | .fnDef _ _ b => (if blockDoc b then 1 else 0) + docCountB b
  | .classDef _ b => (if blockDoc b then 1 else 0) + docCountB b
  | .ifStmt _ t e => docCountB t + docCountB e
  | .whileStmt _ b => docCountB b
  | .forStmt _ _ b => docCountB b
def docCountB : StmtList → ℕ
  | .nil => 0
  | .cons s r => docCountS s + docCountB r
end

/-- Docstring-bearing nodes of a whole module: the module node plus every
function/class definition whose first statement is a string literal with
non-whitespace content (the truthy docstrings). -/
def docCountM (m : PyModule) : ℕ :=
  (if blockDoc m.body then 1 else 0) + docCountB m.body

/-! ## Cyclomatic complexity

`Modelled from the spec:` the per-unit counting lives in the external radon
library (`cc_visit`), not in the repository; per the spec, each callable unit
scores 1 plus its decision points (branches, loops, boolean operators), and
the snapshot value is the sum across all units.  Module-level statements
belong to no unit.  Nested function definitions are separate units; their
interiors do not count toward the enclosing unit. -/

mutual
/-- Decision points contributed by an expression: a boolean operation over
`k` values contributes `k - 1`. -/
def decE : PyExpr → ℕ
  | .strLit _ => 0
  | .numLit _ => 0
  | .name _ => 0
  | .listLit es => decEL es
  | .unaryOp _ a => decE a
  | .binOp _ l r => decE l + decE r
  | .boolOp _ vs => (elen vs - 1) + decEL vs
  | .compare _ l r => decE l + decE r
def decEL : ExprList → ℕ
  | .nil => 0
  | .cons e r => decE e + decEL r
def elen : ExprList → ℕ
  | .nil => 0
  | .cons _ r => 1 + elen r
end

mutual
/-- Decision points of a statement inside one unit's body; nested callable
units contribute nothing here (they are scored separately). -/
def decS : PyStmt → ℕ
  | .exprStmt e => decE e
  | .assign _ e => decE e
  | .ret e => decE e
  | .fnDef _ _ _ => 0
  | .classDef _ _ => 0
  | .ifStmt c t e => 1 + decE c + decB t + decB e
  | .whileStmt c b => 1 + decE c + decB b
  | .forStmt _ it b => 1 + decE it + decB b
def decB : StmtList → ℕ
  | .nil => 0
  | .cons s r => decS s + decB r
end

mutual
/-- Visitor-style accumulated total: a function definition contributes
1 + its own decisions + the totals of units nested below it. -/
def ccTotS : PyStmt → ℕ
  | .exprStmt _ => 0
  | .assign _ _ => 0
  | .ret _ => 0
  | .fnDef _ _ b => 1 + decB b + ccTotB b
  | .classDef _ b => ccTotB b
  | .ifStmt _ t e => ccTotB t + ccTotB e
  | .whileStmt _ b => ccTotB b
  | .forStmt _ _ b => ccTotB b
def ccTotB : StmtList → ℕ
  | .nil => 0
  | .cons s r => ccTotS s + ccTotB r
end

/-- Snapshot cyclomatic-complexity total: `sum(c.complexity for c in cc_visit(code))`. -/
def cc_total (m : PyModule) : ℕ := ccTotB m.body

mutual
/-- The bodies of all callable units in a statement (each function
definition's body, recursively). -/
def ccUnitsS : PyStmt → List StmtList
  | .exprStmt _ => []
  | .assign _ _ => []
  | .ret _ => []
  | .fnDef _ _ b => b :: ccUnitsB b
  | .classDef _ b => ccUnitsB b
  | .ifStmt _ t e => ccUnitsB t ++ ccUnitsB e
  | .whileStmt _ b => ccUnitsB b
  | .forStmt _ _ b => ccUnitsB b
def ccUnitsB : StmtList → List StmtList
  | .nil => []
  | .cons s r => ccUnitsS s ++ ccUnitsB r
end

/-- Complexity of one callable unit: decision points + 1. -/
def unitCC (b : StmtList) : ℕ := 1 + decB b

/-! ## Halstead token inventory

`Modelled from the spec:` the token inventory lives in the external radon
library (`h_visit`): operator occurrences come from the operator nodes
(unary, binary, boolean, comparison); operand occurrences are the atomic
names/literals appearing as immediate arguments of those operator nodes.
Standalone literals (for instance a docstring) are not operands. -/

/-- An operand occurrence token. -/
inductive OperandTok where
  | idTok (s : String)
  | numTok (n : Int)
  | strTok (s : String)
deriving DecidableEq

/-- The operand tokens an expression contributes when it appears as the
immediate argument of an operator node. -/
def atomTok : PyExpr → List OperandTok
  | .name s => [.idTok s]
  | .numLit n => [.numTok n]
  | .strLit s => [.strTok s]
  | _ => []

mutual
def opOccE : PyExpr → List String
  | .strLit _ => []
  | .numLit _ => []
  | .name _ => []
  | .listLit es => opOccEL es
  | .unaryOp op a => op :: opOccE a
  | .binOp op l r => op :: (opOccE l ++ opOccE r)
  | .boolOp op vs => op :: opOccEL vs
  | .compare op l r => op :: (opOccE l ++ opOccE r)
def opOccEL : ExprList → List String
  | .nil => []
  | .cons e r => opOccE e ++ opOccEL r
end

mutual
def rndOccE : PyExpr → List OperandTok
  | .strLit _ => []
  | .numLit _ => []
  | .name _ => []
  | .listLit es => rndOccEL es
  | .unaryOp _ a => atomTok a ++ rndOccE a
  | .binOp _ l r => atomTok l ++ atomTok r ++ (rndOccE l ++ rndOccE r)
  | .boolOp _ vs => atomTokL vs ++ rndOccEL vs
  | .compare _ l r => atomTok l ++ atomTok r ++ (rndOccE l ++ rndOccE r)
def rndOccEL : ExprList → List OperandTok
  | .nil => []
  | .cons e r => rndOccE e ++ rndOccEL r
def atomTokL : ExprList → List OperandTok
  | .nil => []
  | .cons e r => atomTok e ++ atomTokL r
end

mutual
def opOccS : PyStmt → List String
  | .exprStmt e => opOccE e
  | .assign _ e => opOccE e
  | .ret e => opOccE e
  | .fnDef _ _ b => opOccB b
  | .classDef _ b => opOccB b
  | .ifStmt c t e => opOccE c ++ (opOccB t ++ opOccB e)
  | .whileStmt c b => opOccE c ++ opOccB b
  | .forStmt _ it b => opOccE it ++ opOccB b
def opOccB : StmtList → List String
  | .nil => []
  | .cons s r => opOccS s ++ opOccB r
end

mutual
def rndOccS : PyStmt → List OperandTok
  | .exprStmt e => rndOccE e
  | .assign _ e => rndOccE e
  | .ret e => rndOccE e
  | .fnDef _ _ b => rndOccB b
  | .classDef _ b => rndOccB b
  | .ifStmt c t e => rndOccE c ++ (rndOccB t ++ rndOccB e)
  | .whileStmt c b => rndOccE c ++ rndOccB b
  | .forStmt _ it b => rndOccE it ++ rndOccB b
def rndOccB : StmtList → List OperandTok
  | .nil => []
  | .cons s r => rndOccS s ++ rndOccB r
end

/-- Halstead token inventory of a snapshot: distinct/total operator and
operand counts. -/
structure HInv where
  h1 : ℕ
  h2 : ℕ
  N1 : ℕ
  N2 : ℕ

/-- The inventory of a module: `h1`/`h2` are the numbers of distinct
operator/operand tokens, `N1`/`N2` the total occurrence counts. -/
def hInventory (m : PyModule) : HInv :=
  { h1 := (opOccB m.body).dedup.length
  , h2 := (rndOccB m.body).dedup.length
  , N1 := (opOccB m.body).length
  , N2 := (rndOccB m.body).length }

/-! ## Metric families and `analyze_code` -/

/-- Transcendental functions used by the metric formulas, supplied as
parameters: none of the verified properties depends on their values. -/
structure AnalyzerOps where
  log2 : ℚ → ℚ
  lnQ : ℚ → ℚ

/-- Keys of the `raw_metrics` dict built by `analyze_code`
(lexical line counts merged with the structural counts). -/
inductive RawKey where
  | loc
  | lloc
  | sloc
  | comments
  | multi
  | blank
  | n_functions
  | n_classes
  | n_methods
  | n_docstrings
deriving DecidableEq

/-- Keys of the `halstead_metrics` dict built by `analyze_code`. -/
inductive HalKey where
  | h1
  | h2
  | N1
  | N2
  | h_volume
  | h_difficulty
  | h_effort
  | t
  | b
deriving DecidableEq

/-- `Modelled from the spec:` the Halstead family computed by the external
radon library from the token inventory: volume = (N1+N2)·log2(h1+h2),
difficulty = (h1/2)·(N2/h2), effort = difficulty·volume, time = effort/18,
bugs = volume/3000.  If `h1+h2` or `h2` is zero the formulas are undefined
(log of zero / division by zero) and the whole family is `none`. -/
def hFamily (ops : AnalyzerOps) (inv : HInv) : Option (HalKey → ℚ) :=
  if inv.h1 + inv.h2 = 0 ∨ inv.h2 = 0 then none
  else
    let vol : ℚ := ((inv.N1 + inv.N2 : ℕ) : ℚ) * ops.log2 ((inv.h1 + inv.h2 : ℕ) : ℚ)
    let diff : ℚ := ((inv.h1 : ℚ) / 2) * ((inv.N2 : ℚ) / (inv.h2 : ℚ))
    let eff : ℚ := diff * vol
    some (fun k => match k with
      | .h1 => (inv.h1 : ℚ)
      | .h2 => (inv.h2 : ℚ)
      | .N1 => (inv.N1 : ℚ)
      | .N2 => (inv.N2 : ℚ)
      | .h_volume => vol
      | .h_difficulty => diff
      | .h_effort => eff
      | .t => eff / 18
      | .b => vol / 3000)

/-- `Modelled from the spec:` the maintainability index computed by the
external radon library — the standard logarithmic composite of Halstead
volume, total cyclomatic complexity and source lines, rescaled to 0–100. -/
def miOf (ops : AnalyzerOps) (vol : ℚ) (cc : ℕ) (sloc : ℕ) : ℚ :=
  max 0 ((171 - (26 / 5) * ops.lnQ vol - (23 / 100) * (cc : ℚ)
           - (81 / 5) * ops.lnQ (sloc : ℚ)) * 100 / 171)

/-- Lexical line profile of a text (radon's `raw_analyze` output). -/
structure LexProfile where
  loc : ℕ
  lloc : ℕ
  sloc : ℕ
  comments : ℕ
  multi : ℕ
  blank : ℕ

/-- A source text, abstracted to what the scripts consume: its parse outcome
(`none` on a syntax error) and its lexical line profile. -/
structure PySource where
  tree : Option PyModule
  lex : LexProfile

/-- The text `""`: it parses to the empty module, and every lexical count is
zero. -/
def emptySource : PySource :=
  { tree := some ⟨.nil⟩, lex := ⟨0, 0, 0, 0, 0, 0⟩ }

/-- One snapshot's defined metric set, as produced by `analyze_code`
(4_download_commits.py): MI, total CC, the merged raw/structural dict, and
the Halstead dict (`none` models the NaN family). -/
structure MetricSet where
  mi : ℚ
  cc : ℕ
  raw : RawKey → ℕ
  hal : Option (HalKey → ℚ)

/-- `analyze_code` (4_download_commits.py).  A parse failure makes the whole
result `None`.  Otherwise MI, CC total, raw metrics and structural counts
are computed; the Halstead dict is kept only when the inventory is
non-degenerate and the total token count (`h.total.length`) is positive,
else it is the NaN family (`none`). -/
def analyze_code (ops : AnalyzerOps) (src : PySource) : Option MetricSet :=
  match src.tree with
  | none => none
  | some m =>
    let inv := hInventory m
    let cnts := count_definitions m
    some
      { mi := miOf ops
          (((inv.N1 + inv.N2 : ℕ) : ℚ) * ops.log2 ((inv.h1 + inv.h2 : ℕ) : ℚ))
          (cc_total m) src.lex.sloc
      , cc := cc_total m
      , raw := fun k => match k with
          | .loc => src.lex.loc
          | .lloc => src.lex.lloc
          | .sloc => src.lex.sloc
          | .comments => src.lex.comments
          | .multi => src.lex.multi
          | .blank => src.lex.blank
          | .n_functions => cnts.1
          | .n_classes => cnts.2.1
          | .n_methods => cnts.2.2.1
          | .n_docstrings => cnts.2.2.2
      , hal := if inv.N1 + inv.N2 > 0 then hFamily ops inv else none }

/-- The ambient process state visible to the script when `analyze_code`
runs (environment credential, scratch directory).  The function's body reads
none of it; threading it makes that an explicit theorem. -/
structure ScriptEnv where
  githubPat : String
  tmpRoot : String

/-- `analyze_code` as invoked inside the running script: the ambient state is
in scope but unused by the source body. -/
def analyze_code_in (ops : AnalyzerOps) (_env : ScriptEnv) (src : PySource) :
    Option MetricSet :=
  analyze_code ops src

/-! ## Aggregation (variant `4_download_commits.py`) -/

/-- `np.mean` over a nonempty list, in exact arithmetic. -/
def npMean (l : List ℚ) : ℚ := l.sum / (l.length : ℚ)

/-- `np.nanmean`: the mean of the non-NaN entries, NaN (`none`) when no entry
is defined. -/
def npNanmean (l : List (Option ℚ)) : Option ℚ :=
  match l.filterMap id with
  | [] => none
  | xs => some (xs.sum / (xs.length : ℚ))

/-- A persisted per-commit summary row: per metric, the mean of before-values
and the mean of after-values over the commit's surviving files. -/
structure CommitSummary where
  miB : ℚ
  miA : ℚ
  ccB : ℚ
  ccA : ℚ
  rawB : RawKey → ℚ
  rawA : RawKey → ℚ
  halB : HalKey → Option ℚ
  halA : HalKey → Option ℚ

/-- The survivor filter of 4_download_commits.py's per-file loop:
`if r1[0] is None or r2[0] is None: continue` — a file-pair is kept exactly
when both analyses are defined. -/
def collectSurvivors :
    List (Option MetricSet × Option MetricSet) → List (MetricSet × MetricSet)
  | [] => []
  | (some b, some a) :: rest => (b, a) :: collectSurvivors rest
  | (some _, none) :: rest => collectSurvivors rest
  | (none, _) :: rest => collectSurvivors rest

/-- The summary construction of 4_download_commits.py: no row when no file
survived (`if mi_b:`), else `np.mean` per metric — except the Halstead
columns, which use `np.nanmean`. -/
def buildSummary (s : List (MetricSet × MetricSet)) : Option CommitSummary :=
  match s with
  | [] => none
  | _ :: _ =>
    some
      { miB := npMean (s.map fun p => p.1.mi)
      , miA := npMean (s.map fun p => p.2.mi)
      , ccB := npMean (s.map fun p => (p.1.cc : ℚ))
      , ccA := npMean (s.map fun p => (p.2.cc : ℚ))
      , rawB := fun k => npMean (s.map fun p => (p.1.raw k : ℚ))
      , rawA := fun k => npMean (s.map fun p => (p.2.raw k : ℚ))
      , halB := fun k => npNanmean (s.map fun p => p.1.hal.map fun h => h k)
      , halA := fun k => npNanmean (s.map fun p => p.2.hal.map fun h => h k) }

/-- Per-commit processing of 4_download_commits.py, from the fetched file
contents on: `git show`'s output is used without a return-code check, so a
file missing at a revision contributes its empty stdout, which parses to the
empty module (`emptySource`). -/
def processCommit1 (ops : AnalyzerOps)
    (files : List (Option PySource × Option PySource)) : Option CommitSummary :=
  buildSummary (collectSurvivors (files.map fun fp =>
    (analyze_code ops (fp.1.getD emptySource),
     analyze_code ops (fp.2.getD emptySource))))

/-! ## Aggregation (variant `4_download_commits_2.py`) -/

/-- The survivor filter of 4_download_commits_2.py's per-file loop:
`if mib is None: continue` — only the *before* analysis is checked; the
after-side value is appended as-is (possibly `None`). -/
def collect2 :
    List (Option MetricSet × Option MetricSet) → List (MetricSet × Option MetricSet)
  | [] => []
  | (some b, a) :: rest => (b, a) :: collect2 rest
  | (none, _) :: rest => collect2 rest

/-- Outcome of variant 2's row construction: no row (`if not mi_b: continue`),
an unhandled exception (`sum(...)` over a list containing `None`), or a row. -/
inductive Row2Res where
  | noRow
  | crash
  | row (r : CommitSummary)

/-- The values variant 2's `row_out` arithmetic needs from one collected
pair: the after-side metric set and both Halstead dicts; `none` when any of
them is missing (`None` reaching `sum(...)`). -/
def row2Extract (p : MetricSet × Option MetricSet) :
    Option (MetricSet × MetricSet × (HalKey → ℚ) × (HalKey → ℚ)) :=
  p.2.bind fun a =>
    p.1.hal.bind fun hb =>
      a.hal.map fun ha => (p.1, a, hb, ha)

/-- The `row_out` construction of 4_download_commits_2.py: skip when no file
was kept; compute `sum(xs)/len(xs)` per metric.  Any `None` among the
collected after-side values (or any missing Halstead dict) makes the
arithmetic raise, aborting the run: modelled as `crash`. -/
def buildRow2 (s : List (MetricSet × Option MetricSet)) : Row2Res :=
  match s with
  | [] => .noRow
  | _ :: _ =>
    match s.mapM row2Extract with
    | none => .crash
    | some full =>
      .row
        { miB := npMean (full.map fun q => q.1.mi)
        , miA := npMean (full.map fun q => q.2.1.mi)
        , ccB := npMean (full.map fun q => (q.1.cc : ℚ))
        , ccA := npMean (full.map fun q => (q.2.1.cc : ℚ))
        , rawB := fun k => npMean (full.map fun q => (q.1.raw k : ℚ))
        , rawA := fun k => npMean (full.map fun q => (q.2.1.raw k : ℚ))
        , halB := fun k => some (npMean (full.map fun q => q.2.2.1 k))
        , halA := fun k => some (npMean (full.map fun q => q.2.2.2 k)) }

/-- Per-commit processing of 4_download_commits_2.py, from the fetched file
contents on.  Unlike variant 1, the `git show` return code is checked:
`if before.returncode != 0 or after.returncode != 0: continue` — a file
missing at either revision is excluded before analysis.  The per-snapshot
analysis is a parameter (variant 2's `analyze_code` differs in its Halstead
handling, and none of the verified properties depends on it). -/
def processCommit2 (an : PySource → Option MetricSet)
    (files : List (Option PySource × Option PySource)) : Row2Res :=
  buildRow2 (collect2 (files.filterMap fun fp =>
    match fp.1, fp.2 with
    | some b, some a => some (an b, an a)
    | none, _ => none
    | _, none => none))

/-! ## Resume and persistence (4_download_commits_2.py) -/

/-- One persisted ResultStore row. -/
structure StoreRow where
  sha : String
  payload : CommitSummary

/-- One externally supplied commit task. -/
structure CommitTask where
  sha : String
  prId : ℕ

/-- `done_shas`: the commit ids already present in the output CSV. -/
def doneShas (store : List StoreRow) : List String := store.map (·.sha)

/-- One orchestrator invocation of 4_download_commits_2.py over a task
stream: drop tasks whose sha is already persisted
(`filtered[~filtered.sha.isin(done_shas)]`), cap the batch
(`filtered.head(BATCH_SIZE)`), process each remaining task (a failed task
yields no row), and append the new rows to the existing CSV
(`pd.concat([old, new])`). -/
def runBatch (cap : ℕ) (process : CommitTask → Option StoreRow)
    (store : List StoreRow) (tasks : List CommitTask) : List StoreRow :=
  store ++
    (((tasks.filter fun t => decide (t.sha ∉ doneShas store)).take cap).filterMap
      process)

/-! ## Downstream derivation (5_get_analysis.py) -/

/-- The raw comment/multiline averages of one CSV row, as read back by
5_get_analysis.py. -/
structure CsvCommentCols where
  commentsBeforeAvg : ℚ
  commentsAfterAvg : ℚ
  multiBeforeAvg : ℚ
  multiAfterAvg : ℚ

/-- `df["single_comments_before_avg"] = comments_before_avg - multi_before_avg`
followed by `.clip(lower=0)`. -/
def singleCommentsBeforeAvg (r : CsvCommentCols) : ℚ :=
  max (r.commentsBeforeAvg - r.multiBeforeAvg) 0

/-- The after-side single-comment derivation, same two steps. -/
def singleCommentsAfterAvg (r : CsvCommentCols) : ℚ :=
  max (r.commentsAfterAvg - r.multiAfterAvg) 0

/-- `df["cc_diff_avg"] = df["cc_after_avg"] - df["cc_before_avg"]`
(the `diff_metrics` loop of 5_get_analysis.py, at the `cc` key). -/
def ccDiffAvg (r : CommitSummary) : ℚ := r.ccA - r.ccB

/-! ## Repository URL handling -/

/-- Does `pat` start `s`? (`str.startswith`). -/
def startsList : List Char → List Char → Bool
  | [], _ => true
  | _ :: _, [] => false
  | p :: ps, c :: cs => p = c && startsList ps cs

/-- Does `pat` occur in `s`? (Python's `in` on strings, nonempty pattern). -/
def hasOcc (pat : List Char) : List Char → Bool
  | [] => startsList pat []
  | c :: cs => startsList pat (c :: cs) || hasOcc pat cs

/-- Fuel-driven worker for `str.replace`: each step consumes at least one
character, so `l.length` fuel always suffices; the fuel only makes the
recursion structural (kernel-evaluable). -/
def pyReplF (pat rep : List Char) : ℕ → List Char → List Char
  | _, [] => []
  | 0, l => l
  | fuel + 1, c :: cs =>
    if pat ≠ [] ∧ startsList pat (c :: cs) = true then
      rep ++ pyReplF pat rep fuel (cs.drop (pat.length - 1))
    else
      c :: pyReplF pat rep fuel cs

/-- `str.replace`: replace every (leftmost, non-overlapping) occurrence of
`pat` by `rep`.  (The scripts only call it with nonempty patterns; an empty
pattern is passed through unchanged.) -/
def pyRepl (pat rep l : List Char) : List Char := pyReplF pat rep l.length l

/-- String wrapper for `pyRepl`. -/
def pyReplS (pat rep s : String) : String := String.mk (pyRepl pat.data rep.data s.data)

/-- String wrapper for `hasOcc`. -/
def sContains (pat s : String) : Bool := hasOcc pat.data s.data

/-- String wrapper for `startsList`. -/
def sStarts (pat s : String) : Bool := startsList pat.data s.data

/-- The URL canonicalization common to both variants:
`if "api.github.com/repos" in repo_url: repo_url =
repo_url.replace("https://api.github.com/repos/", "https://github.com/") + ".git"`. -/
def canonicalUrl (u : String) : String :=
  if sContains "api.github.com/repos" u then
    pyReplS "https://api.github.com/repos/" "https://github.com/" u ++ ".git"
  else u

/-- Credential embedding of 4_download_commits.py: only when the PAT is
nonempty (`if GITHUB_PAT and repo_url.startswith("https://github.com/")`). -/
def cloneUrl1 (pat u0 : String) : String :=
  let u := canonicalUrl u0
  if pat ≠ "" ∧ sStarts "https://github.com/" u = true then
    pyReplS "https://github.com/" ("https://" ++ pat ++ "@github.com/") u
  else u

/-- Credential embedding of 4_download_commits_2.py: the substitution is
applied unconditionally (`auth_url = repo_url.replace("https://github.com/",
f"https://{GITHUB_PAT}@github.com/")`). -/
def authUrl2 (pat u0 : String) : String :=
  let u := canonicalUrl u0
  pyReplS "https://github.com/" ("https://" ++ pat ++ "@github.com/") u

/-! ## Concrete fixtures -/

/-- A concrete choice of the transcendental parameters (their values are
irrelevant to every verified property). -/
def opsZ : AnalyzerOps := ⟨fun _ => 0, fun _ => 0⟩

/-- The text `"'docstring only'"`: a module whose single statement is a
standalone string literal; one line, counted by radon as a multiline-string
line. -/
def docOnlySource : PySource :=
  { tree := some ⟨.cons (.exprStmt (.strLit "docstring only")) .nil⟩
  , lex := ⟨1, 1, 1, 0, 1, 0⟩ }

/-- The body `if x: return 1` / `return 0` of the spec's Scenario 1. -/
def scenario1BodyBefore : StmtList :=
  .cons (.ifStmt (.name "x") (.cons (.ret (.numLit 1)) .nil) .nil)
    (.cons (.ret (.numLit 0)) .nil)

/-- `def f(x):\n if x:\n  return 1\n return 0` (CC = 2). -/
def scenario1Before : PySource :=
  { tree := some ⟨.cons (.fnDef "f" ["x"] scenario1BodyBefore) .nil⟩
  , lex := ⟨4, 4, 4, 0, 0, 0⟩ }

/-- The same function without the `if` (CC = 1). -/
def scenario1After : PySource :=
  { tree := some ⟨.cons (.fnDef "f" ["x"] (.cons (.ret (.numLit 0)) .nil)) .nil⟩
  , lex := ⟨2, 2, 2, 0, 0, 0⟩ }

/-- A metric set whose Halstead family is defined, with `h_volume = 6`. -/
def msHalDefined : MetricSet :=
  { mi := 50, cc := 3, raw := fun _ => 1, hal := some (fun _ => 6) }

/-- A metric set whose Halstead family is the NaN family (degenerate
inventory), as `analyze_code` produces for an empty file. -/
def msHalNaN : MetricSet :=
  { mi := 100, cc := 0, raw := fun _ => 0, hal := none }

/-- A placeholder summary payload for ResultStore rows. -/
def junkSummary : CommitSummary :=
  { miB := 0, miA := 0, ccB := 0, ccA := 0
  , rawB := fun _ => 0, rawA := fun _ => 0
  , halB := fun _ => none, halA := fun _ => none }

/-! ## Theorems -/

mutual
theorem countFn_stmt (pk : NodeKind) (s : PyStmt) :
    List.countP (fun e => decide (e.kind = NodeKind.functionDef)) (walkStmt pk s)
      = fnCountS s := by
  cases s with
  | exprStmt e => simp [walkStmt, fnCountS]
  | assign t e => simp [walkStmt, fnCountS]
  | ret e => simp [walkStmt, fnCountS]
  | fnDef nm args b =>
    have ih := countFn_block NodeKind.functionDef b
    simp [walkStmt, fnCountS, List.countP_cons, ih]
    omega
  | classDef nm b =>
    have ih := countFn_block NodeKind.classDef b
    simp [walkStmt, fnCountS, List.countP_cons, ih]
  | ifStmt c t e =>
    have iht := countFn_block NodeKind.other t
    have ihe := countFn_block NodeKind.other e
    simp [walkStmt, fnCountS, List.countP_cons, List.countP_append, iht, ihe]
  | whileStmt c b =>
    have ih := countFn_block NodeKind.other b
    simp [walkStmt, fnCountS, List.countP_cons, ih]
  | forStmt t it b =>
    have ih := countFn_block NodeKind.other b
    simp [walkStmt, fnCountS, List.countP_cons, ih]
theorem countFn_block (pk : NodeKind) (b : StmtList) :
    List.countP (fun e => decide (e.kind = NodeKind.functionDef)) (walkBlock pk b)
      = fnCountB b := by
  cases b with
  | nil => simp [walkBlock, fnCountB]
  | cons s r =>
    have ih1 := countFn_stmt pk s
    have ih2 := countFn_block pk r
    simp [walkBlock, fnCountB, List.countP_append, ih1, ih2]
end

mutual
theorem countCls_stmt (pk : NodeKind) (s : PyStmt) :
    List.countP (fun e => decide (e.kind = NodeKind.classDef)) (walkStmt pk s)
      = clsCountS s := by
  cases s with
  | exprStmt e => simp [walkStmt, clsCountS]
  | assign t e => simp [walkStmt, clsCountS]
  | ret e => simp [walkStmt, clsCountS]
  | fnDef nm args b =>
    have ih := countCls_block NodeKind.functionDef b
    simp [walkStmt, clsCountS, List.countP_cons, ih]
  | classDef nm b =>
    have ih := countCls_block NodeKind.classDef b
    simp [walkStmt, clsCountS, List.countP_cons, ih]
    omega
  | ifStmt c t e =>
    have iht := countCls_block NodeKind.other t
    have ihe := countCls_block NodeKind.other e
    simp [walkStmt, clsCountS, List.countP_cons, List.countP_append, iht, ihe]
  | whileStmt c b =>
    have ih := countCls_block NodeKind.other b
    simp [walkStmt, clsCountS, List.countP_cons, ih]
  | forStmt t it b =>
    have ih := countCls_block NodeKind.other b
    simp [walkStmt, clsCountS, List.countP_cons, ih]
theorem countCls_block (pk : NodeKind) (b : StmtList) :
    List.countP (fun e => decide (e.kind = NodeKind.classDef)) (walkBlock pk b)
      = clsCountB b := by
  cases b with
  | nil => simp [walkBlock, clsCountB]
  | cons s r =>
    have ih1 := countCls_stmt pk s
    have ih2 := countCls_block pk r
    simp [walkBlock, clsCountB, List.countP_append, ih1, ih2]
end

mutual
theorem countMeth_stmt (pk : NodeKind) (s : PyStmt) :
    List.countP
        (fun e => decide (e.kind = NodeKind.functionDef ∧ e.parent = NodeKind.classDef))
        (walkStmt pk s)
      = methCountS (decide (pk = NodeKind.classDef)) s := by
  cases s with
  | exprStmt e => simp [walkStmt, methCountS]
  | assign t e => simp [walkStmt, methCountS]
  | ret e => simp [walkStmt, methCountS]
  | fnDef nm args b =>
    have ih := countMeth_block NodeKind.functionDef b
    simp at ih
    simp [walkStmt, methCountS, List.countP_cons, ih]
    cases pk <;> simp <;> omega
  | classDef nm b =>
    have ih := countMeth_block NodeKind.classDef b
    simp at ih
    simp [walkStmt, methCountS, List.countP_cons, ih]
  | ifStmt c t e =>
    have iht := countMeth_block NodeKind.other t
    have ihe := countMeth_block NodeKind.other e
    simp at iht ihe
    simp [walkStmt, methCountS, List.countP_cons, List.countP_append, iht, ihe]
  | whileStmt c b =>
    have ih := countMeth_block NodeKind.other b
    simp at ih
    simp [walkStmt, methCountS, List.countP_cons, ih]
  | forStmt t it b =>
    have ih := countMeth_block NodeKind.other b
    simp at ih
    simp [walkStmt, methCountS, List.countP_cons, ih]
theorem countMeth_block (pk : NodeKind) (b : StmtList) :
    List.countP
        (fun e => decide (e.kind = NodeKind.functionDef ∧ e.parent = NodeKind.classDef))
        (walkBlock pk b)
      = methCountB (decide (pk = NodeKind.classDef)) b := by
  cases b with
  | nil => simp [walkBlock, methCountB]
  | cons s r =>
    have ih1 := countMeth_stmt pk s
    have ih2 := countMeth_block pk r
    simp at ih1 ih2
    simp [walkBlock, methCountB, List.countP_append, ih1, ih2]
end

mutual
theorem countDoc_stmt (pk : NodeKind) (s : PyStmt) :
    List.countP
        (fun e => decide ((e.kind = NodeKind.module ∨ e.kind = NodeKind.functionDef
          ∨ e.kind = NodeKind.classDef) ∧ e.hasDoc = true))
        (walkStmt pk s)
      = docCountS s := by
  cases s with
  | exprStmt e => simp [walkStmt, docCountS]
  | assign t e => simp [walkStmt, docCountS]
  | ret e => simp [walkStmt, docCountS]
  | fnDef nm args b =>
    have ih := countDoc_block NodeKind.functionDef b
    simp at ih
    simp [walkStmt, docCountS, List.countP_cons, ih]
    cases h : blockDoc b <;> simp [h] <;> omega
  | classDef nm b =>
    have ih := countDoc_block NodeKind.classDef b
    simp at ih
    simp [walkStmt, docCountS, List.countP_cons, ih]
    cases h : blockDoc b <;> simp [h] <;> omega
  | ifStmt c t e =>
    have iht := countDoc_block NodeKind.other t
    have ihe := countDoc_block NodeKind.other e
    simp at iht ihe
    simp [walkStmt, docCountS, List.countP_cons, List.countP_append, iht, ihe]
  | whileStmt c b =>
    have ih := countDoc_block NodeKind.other b
    simp at ih
    simp [walkStmt, docCountS, List.countP_cons, ih]
  | forStmt t it b =>
    have ih := countDoc_block NodeKind.other b
    simp at ih
    simp [walkStmt, docCountS, List.countP_cons, ih]
theorem countDoc_block (pk : NodeKind) (b : StmtList) :
    List.countP
        (fun e => decide ((e.kind = NodeKind.module ∨ e.kind = NodeKind.functionDef
          ∨ e.kind = NodeKind.classDef) ∧ e.hasDoc = true))
        (walkBlock pk b)
      = docCountB b := by
  cases b with
  | nil => simp [walkBlock, docCountB]
  | cons s r =>
    have ih1 := countDoc_stmt pk s
    have ih2 := countDoc_block pk r
    simp at ih1 ih2
    simp [walkBlock, docCountB, List.countP_append, ih1, ih2]
end

/-- **C7** (amended): for every parsable input, `count_definitions` — which
builds an explicit parent lookup in a pre-pass over the tree — returns
exactly (all function definitions, all class definitions, the function
definitions whose immediate syntactic parent is a class definition, the
module/function/class nodes whose first statement is a standalone string
literal *with non-whitespace content*: `if ast.get_docstring(node):` is a
truthiness test, so empty or whitespace-only docstrings are not counted). -/
theorem count_definitions_correct (m : PyModule) :
    count_definitions m
      = (fnCountB m.body, clsCountB m.body, methCountB false m.body, docCountM m) := by
  have h1 := countFn_block NodeKind.module m.body
  have h2 := countCls_block NodeKind.module m.body
  have h3 := countMeth_block NodeKind.module m.body
  have h4 := countDoc_block NodeKind.module m.body
  simp at h1 h2 h3 h4
  simp [count_definitions, moduleEntries, List.countP_cons, docCountM, h1, h2, h3, h4]
  cases h : blockDoc m.body <;> simp [h] <;> omega

/-- **C7** (counterexample): the module `'""'` — whose only statement is the
empty string literal — has a standalone-string-literal first statement, yet
`count_definitions` reports `n_docstrings = 0`, because
`if ast.get_docstring(node):` is a truthiness test and the cleaned empty
docstring is falsy.  The claim's unconditional "first statement is a
standalone string literal" reading would require `n_docstrings = 1` here. -/
theorem empty_docstring_uncounted :
    firstStmtIsStrLit (.cons (.exprStmt (.strLit "")) .nil) = true
    ∧ (count_definitions ⟨.cons (.exprStmt (.strLit "")) .nil⟩).2.2.2 = 0
    ∧ (count_definitions ⟨.cons (.exprStmt (.strLit "doc")) .nil⟩).2.2.2 = 1 := by
  refine ⟨rfl, by decide, by decide⟩

mutual
theorem ccTot_units_stmt (s : PyStmt) :
    ccTotS s = ((ccUnitsS s).map unitCC).sum := by
  cases s with
  | exprStmt e => simp [ccTotS, ccUnitsS]
  | assign t e => simp [ccTotS, ccUnitsS]
  | ret e => simp [ccTotS, ccUnitsS]
  | fnDef nm args b =>
    have ih := ccTot_units_block b
    simp [ccTotS, ccUnitsS, unitCC, ih]
  | classDef nm b =>
    have ih := ccTot_units_block b
    simp [ccTotS, ccUnitsS, ih]
  | ifStmt c t e =>
    have iht := ccTot_units_block t
    have ihe := ccTot_units_block e
    simp [ccTotS, ccUnitsS, iht, ihe]
  | whileStmt c b =>
    have ih := ccTot_units_block b
    simp [ccTotS, ccUnitsS, ih]
  | forStmt t it b =>
    have ih := ccTot_units_block b
    simp [ccTotS, ccUnitsS, ih]
theorem ccTot_units_block (b : StmtList) :
    ccTotB b = ((ccUnitsB b).map unitCC).sum := by
  cases b with
  | nil => simp [ccTotB, ccUnitsB]
  | cons s r =>
    have ih1 := ccTot_units_stmt s
    have ih2 := ccTot_units_block r
    simp [ccTotB, ccUnitsB, ih1, ih2]
end

/-- **C6**: the per-snapshot cyclomatic-complexity total is the sum over all
callable units of (decision points + 1); for a commit whose single changed
file goes from `def f(x):\n if x:\n  return 1\n return 0` (total 2) to the
same function without the `if` (total 1), the persisted summary has
`cc_before_avg = 2`, `cc_after_avg = 1`, and the derived `cc_diff_avg` is
exactly −1. -/
theorem cc_diff_scenario1 :
    (∀ m : PyModule, cc_total m = ((ccUnitsB m.body).map unitCC).sum)
    ∧ (analyze_code opsZ scenario1Before).map MetricSet.cc = some 2
    ∧ (analyze_code opsZ scenario1After).map MetricSet.cc = some 1
    ∧ (processCommit1 opsZ [(some scenario1Before, some scenario1After)]).map
        (fun r => (r.ccB, r.ccA, ccDiffAvg r)) = some (2, 1, -1) := by
  refine ⟨fun m => ccTot_units_block m.body, ?_, ?_, ?_⟩
  · simp [analyze_code, scenario1Before, scenario1BodyBefore, cc_total, ccTotB, ccTotS,
      decB, decS, decE]
  · simp [analyze_code, scenario1After, cc_total, ccTotB, ccTotS, decB, decS, decE]
  · simp [processCommit1, buildSummary, collectSurvivors, analyze_code, scenario1Before,
      scenario1After, scenario1BodyBefore, cc_total, ccTotB, ccTotS, decB, decS, decE,
      npMean, ccDiffAvg]
    norm_num

/-- **C2**: whenever the Halstead token inventory is degenerate
(`h1+h2 = 0` or `h2 = 0`), `analyze_code` still returns a defined metric set
(MI, CC, raw and structural counts present) whose Halstead family is
Undefined; in particular the empty text and a docstring-only text yield a
defined result with `hal = none`. -/
theorem degenerate_halstead (ops : AnalyzerOps) (s : PySource) (m : PyModule)
    (hm : s.tree = some m)
    (hdeg : (hInventory m).h1 + (hInventory m).h2 = 0 ∨ (hInventory m).h2 = 0) :
    ((analyze_code ops s).isSome = true
      ∧ (analyze_code ops s).bind MetricSet.hal = none)
    ∧ (∀ ops2 : AnalyzerOps, (analyze_code ops2 emptySource).isSome = true
        ∧ (analyze_code ops2 emptySource).bind MetricSet.hal = none)
    ∧ (∀ ops2 : AnalyzerOps, (analyze_code ops2 docOnlySource).isSome = true
        ∧ (analyze_code ops2 docOnlySource).bind MetricSet.hal = none) := by
  refine ⟨⟨?_, ?_⟩, ?_, ?_⟩
  · simp [analyze_code, hm]
  · simp only [analyze_code, hm, Option.bind]
    by_cases hN : (hInventory m).N1 + (hInventory m).N2 > 0
    · have h2 : (hInventory m).h2 = 0 := by
        rcases hdeg with h | h <;> omega
      simp [hN, hFamily, h2]
    · simp [hN]
  · intro ops2
    constructor
    · simp [analyze_code, emptySource]
    · simp [analyze_code, emptySource, hInventory, opOccB, rndOccB]
  · intro ops2
    constructor
    · simp [analyze_code, docOnlySource]
    · simp [analyze_code, docOnlySource, hInventory, opOccB, rndOccB, opOccS, rndOccS,
        opOccE, rndOccE]

/-- **C9**: `analyze_code` is a pure function of its input text: it reads
none of the ambient script state, and repeated calls on identical text agree
bit-for-bit on every numeric field (MI, CC, each raw/structural count and
the whole Halstead family). -/
theorem analyze_code_pure (ops : AnalyzerOps) (e1 e2 : ScriptEnv) (s : PySource) :
    analyze_code_in ops e1 s = analyze_code_in ops e2 s
    ∧ (analyze_code_in ops e1 s).map MetricSet.mi
        = (analyze_code_in ops e2 s).map MetricSet.mi
    ∧ (analyze_code_in ops e1 s).map MetricSet.cc
        = (analyze_code_in ops e2 s).map MetricSet.cc
    ∧ (∀ k, (analyze_code_in ops e1 s).map (fun ms => ms.raw k)
        = (analyze_code_in ops e2 s).map (fun ms => ms.raw k))
    ∧ (∀ k, (analyze_code_in ops e1 s).bind (fun ms => ms.hal.map (fun h => h k))
        = (analyze_code_in ops e2 s).bind (fun ms => ms.hal.map (fun h => h k))) := by
  exact ⟨rfl, rfl, rfl, fun _ => rfl, fun _ => rfl⟩

/-- **C10**: 5_get_analysis.py derives the single-line comment averages by
zero-clipped subtraction: each derived column equals
`max 0 (comments_avg − multi_avg)`, is never negative, and is exactly 0
whenever the multiline-string average exceeds the comment average. -/
theorem single_comments_derivation (r : CsvCommentCols) :
    singleCommentsBeforeAvg r = max 0 (r.commentsBeforeAvg - r.multiBeforeAvg)
    ∧ singleCommentsAfterAvg r = max 0 (r.commentsAfterAvg - r.multiAfterAvg)
    ∧ 0 ≤ singleCommentsBeforeAvg r
    ∧ 0 ≤ singleCommentsAfterAvg r
    ∧ (r.commentsBeforeAvg < r.multiBeforeAvg → singleCommentsBeforeAvg r = 0)
    ∧ (r.commentsAfterAvg < r.multiAfterAvg → singleCommentsAfterAvg r = 0) := by
  refine ⟨max_comm _ _, max_comm _ _, le_max_right _ _, le_max_right _ _, ?_, ?_⟩
  · intro h
    exact max_eq_right (by linarith)
  · intro h
    exact max_eq_right (by linarith)

/-- Witness for `degenerate_halstead`: the empty text (tree = empty module,
inventory all zero) satisfies the hypotheses, and the conclusion evaluates. -/
theorem degenerate_halstead_witness :
    (emptySource.tree = some ⟨.nil⟩
      ∧ ((hInventory ⟨.nil⟩).h1 + (hInventory ⟨.nil⟩).h2 = 0
          ∨ (hInventory ⟨.nil⟩).h2 = 0))
    ∧ ((analyze_code opsZ emptySource).isSome = true
      ∧ (analyze_code opsZ emptySource).bind MetricSet.hal = none) :=
  ⟨⟨rfl, by decide⟩,
    (degenerate_halstead opsZ emptySource ⟨.nil⟩ rfl (by decide)).1⟩

/-- Witness for `single_comments_derivation`: a row whose multiline average
exceeds its comment average, where the derived column is clipped to 0. -/
theorem single_comments_witness :
    ((1 : ℚ) < 5)
    ∧ singleCommentsBeforeAvg ⟨1, 1, 5, 5⟩ = 0 :=
  ⟨by norm_num, (single_comments_derivation ⟨1, 1, 5, 5⟩).2.2.2.2.1 (by norm_num)⟩

theorem filterMap_id_map_some (vs : List ℚ) :
    (vs.map some).filterMap id = vs := by
  induction vs with
  | nil => simp
  | cons a l ih => simp [ih]

theorem npNanmean_all_some (vs : List ℚ) (hne : vs ≠ []) :
    npNanmean (vs.map some) = some (vs.sum / (vs.length : ℚ)) := by
  unfold npNanmean
  rw [filterMap_id_map_some]
  cases vs with
  | nil => exact absurd rfl hne
  | cons a t => rfl

theorem mapM_option_forall2 {α β : Type} (f : α → Option β) :
    ∀ (l : List α) (r : List β), l.mapM f = some r →
      List.Forall₂ (fun a b => f a = some b) l r := by
  intro l
  induction l with
  | nil =>
    intro r h
    simp only [List.mapM_nil, pure, Option.some_inj] at h
    subst h
    exact List.Forall₂.nil
  | cons a t ih =>
    intro r h
    rw [List.mapM_cons] at h
    cases hfa : f a with
    | none =>
      rw [hfa] at h
      simp at h
    | some b =>
      rw [hfa] at h
      cases hml : t.mapM f with
      | none =>
        rw [hml] at h
        simp at h
      | some c =>
        rw [hml] at h
        simp at h
        subst h
        exact List.Forall₂.cons hfa (ih c hml)

theorem row2Extract_fst (p : MetricSet × Option MetricSet)
    (q : MetricSet × MetricSet × (HalKey → ℚ) × (HalKey → ℚ))
    (h : row2Extract p = some q) : q.1 = p.1 := by
  cases hp2 : p.2 with
  | none => simp [row2Extract, hp2] at h
  | some a =>
    cases hb : p.1.hal with
    | none => simp [row2Extract, hp2, hb] at h
    | some hbf =>
      cases ha : a.hal with
      | none => simp [row2Extract, hp2, hb, ha] at h
      | some haf =>
        simp [row2Extract, hp2, hb, ha] at h
        subst h
        rfl

theorem forall2_extract_fst :
    ∀ (l : List (MetricSet × Option MetricSet))
      (r : List (MetricSet × MetricSet × (HalKey → ℚ) × (HalKey → ℚ))),
      List.Forall₂ (fun p q => row2Extract p = some q) l r →
      r.map (fun q => q.1) = l.map (fun p => p.1) := by
  intro l r h
  induction h with
  | nil => rfl
  | cons h1 _ ih =>
    simp only [List.map_cons, ih, row2Extract_fst _ _ h1]

/-- **C1**: when at least one file-pair survives, the persisted summary gives,
for every tracked metric, exactly the arithmetic mean of the survivors'
before-values and after-values (in variant 1's `np.mean`/`np.nanmean`
construction and in variant 2's `sum/len` construction alike); with no
survivors no row is produced by either variant. -/
theorem aggregation_exact (s : List (MetricSet × MetricSet)) (hne : s ≠ []) :
    buildSummary [] = none
    ∧ buildRow2 [] = .noRow
    ∧ (∃ out, buildSummary s = some out
        ∧ out.miB = (s.map fun p => p.1.mi).sum / (s.length : ℚ)
        ∧ out.miA = (s.map fun p => p.2.mi).sum / (s.length : ℚ)
        ∧ out.ccB = (s.map fun p => (p.1.cc : ℚ)).sum / (s.length : ℚ)
        ∧ out.ccA = (s.map fun p => (p.2.cc : ℚ)).sum / (s.length : ℚ)
        ∧ (∀ k, out.rawB k = (s.map fun p => (p.1.raw k : ℚ)).sum / (s.length : ℚ))
        ∧ (∀ k, out.rawA k = (s.map fun p => (p.2.raw k : ℚ)).sum / (s.length : ℚ))
        ∧ (∀ k (vs : List ℚ), (s.map fun p => p.1.hal.map fun h => h k) = vs.map some →
            out.halB k = some (vs.sum / (vs.length : ℚ)))
        ∧ (∀ k (vs : List ℚ), (s.map fun p => p.2.hal.map fun h => h k) = vs.map some →
            out.halA k = some (vs.sum / (vs.length : ℚ))))
    ∧ (∀ (s2 : List (MetricSet × Option MetricSet)) full, s2 ≠ [] →
        s2.mapM row2Extract = some full →
        full.map (fun q => q.1) = s2.map (fun p => p.1)
        ∧ full.length = s2.length
        ∧ ∃ r, buildRow2 s2 = .row r
            ∧ r.miB = (full.map fun q => q.1.mi).sum / (full.length : ℚ)
            ∧ r.miA = (full.map fun q => q.2.1.mi).sum / (full.length : ℚ)
            ∧ r.ccB = (full.map fun q => (q.1.cc : ℚ)).sum / (full.length : ℚ)
            ∧ r.ccA = (full.map fun q => (q.2.1.cc : ℚ)).sum / (full.length : ℚ)
            ∧ (∀ k, r.rawB k = (full.map fun q => (q.1.raw k : ℚ)).sum / (full.length : ℚ))
            ∧ (∀ k, r.rawA k = (full.map fun q => (q.2.1.raw k : ℚ)).sum / (full.length : ℚ))
            ∧ (∀ k, r.halB k = some ((full.map fun q => q.2.2.1 k).sum / (full.length : ℚ)))
            ∧ (∀ k, r.halA k = some ((full.map fun q => q.2.2.2 k).sum / (full.length : ℚ)))) := by
  refine ⟨rfl, rfl, ?_, ?_⟩
  · cases s with
    | nil => exact absurd rfl hne
    | cons p rest =>
      refine ⟨_, rfl, ?_, ?_, ?_, ?_, fun k => ?_, fun k => ?_, fun k vs hvs => ?_,
        fun k vs hvs => ?_⟩
      · simp [buildSummary, npMean]
      · simp [buildSummary, npMean]
      · simp [buildSummary, npMean]
      · simp [buildSummary, npMean]
      · simp [buildSummary, npMean]
      · simp [buildSummary, npMean]
      · have hvne : vs ≠ [] := by
          intro hv
          rw [hv] at hvs
          simp at hvs
        simp only [buildSummary]
        rw [hvs, npNanmean_all_some vs hvne]
      · have hvne : vs ≠ [] := by
          intro hv
          rw [hv] at hvs
          simp at hvs
        simp only [buildSummary]
        rw [hvs, npNanmean_all_some vs hvne]
  · intro s2 full hne2 hfull
    have h2 := mapM_option_forall2 row2Extract s2 full hfull
    refine ⟨forall2_extract_fst _ _ h2, h2.length_eq.symm, ?_⟩
    cases s2 with
    | nil => exact absurd rfl hne2
    | cons p rest =>
      refine ⟨{ miB := npMean (full.map fun q => q.1.mi)
              , miA := npMean (full.map fun q => q.2.1.mi)
              , ccB := npMean (full.map fun q => (q.1.cc : ℚ))
              , ccA := npMean (full.map fun q => (q.2.1.cc : ℚ))
              , rawB := fun k => npMean (full.map fun q => (q.1.raw k : ℚ))
              , rawA := fun k => npMean (full.map fun q => (q.2.1.raw k : ℚ))
              , halB := fun k => some (npMean (full.map fun q => q.2.2.1 k))
              , halA := fun k => some (npMean (full.map fun q => q.2.2.2 k)) },
        ?_, ?_, ?_, ?_, ?_, fun k => ?_, fun k => ?_, fun k => ?_, fun k => ?_⟩
      · simp only [buildRow2, hfull]
      · simp [npMean]
      · simp [npMean]
      · simp [npMean]
      · simp [npMean]
      · simp [npMean]
      · simp [npMean]
      · simp [npMean]
      · simp [npMean]

/-- **C3** (the code deviates): 4_download_commits.py's filter does drop a
file-pair when either side is Undefined, but 4_download_commits_2.py checks
only the before side (`if mib is None: continue`): a pair whose after-side
analysis failed is *kept*, and the subsequent `sum(...)` arithmetic over the
collected `None` crashes the run instead of skipping the pair. -/
theorem survivor_filter_divergence :
    collectSurvivors [(some msHalDefined, none)] = []
    ∧ collectSurvivors [(none, some msHalDefined)] = []
    ∧ collect2 [(some msHalDefined, none)] = [(msHalDefined, none)]
    ∧ buildRow2 [(msHalDefined, none)] = .crash := by
  refine ⟨rfl, rfl, rfl, ?_⟩
  have hm : List.mapM.loop row2Extract [(msHalDefined, none)] [] = none := by
    simp [List.mapM.loop, row2Extract]
  simp only [buildRow2, List.mapM, hm]

/-- **C4** (counterexample for variant 1): in 4_download_commits.py the
`git show` return code is never checked, so a commit whose only changed file
is missing in "after" analyzes the empty stdout as an empty module, the
pair survives, and a summary row *is* persisted — the claim says no row is. -/
theorem missing_after_variant1_persists :
    (processCommit1 opsZ [(some scenario1Before, none)]).isSome = true := by
  rfl

/-- **C4** (amended): in 4_download_commits_2.py a file missing at either
revision (nonzero `git show` return code) is excluded before analysis, and a
commit whose only changed file is missing yields no summary row. -/
theorem missing_file_no_row_variant2 (an : PySource → Option MetricSet)
    (b : PySource) :
    processCommit2 an [(some b, none)] = .noRow
    ∧ processCommit2 an [(none, some b)] = .noRow :=
  ⟨rfl, rfl⟩

/-- **C5**: with resume enabled, a run over a stream containing an
already-persisted commit `A` and a new commit `B` processes only `B`; the
existing rows (including `A`'s) survive unchanged as a prefix of the merged
store; the merged store still has at most one row per commit id; and a
second run over the same stream changes nothing (one row per successfully
processed commit id). -/
theorem resume_idempotent (cap : ℕ) (process : CommitTask → Option StoreRow)
    (store : List StoreRow) (tA tB : CommitTask)
    (hcap : 2 ≤ cap)
    (hA : tA.sha ∈ doneShas store)
    (hB : tB.sha ∉ doneShas store)
    (hnodup : (doneShas store).Nodup)
    (hproc : ∀ t r, process t = some r → r.sha = t.sha) :
    (([tA, tB].filter fun t => decide (t.sha ∉ doneShas store)).take cap = [tB])
    ∧ runBatch cap process store [tA, tB] = store ++ (process tB).toList
    ∧ (doneShas (runBatch cap process store [tA, tB])).Nodup
    ∧ runBatch cap process (runBatch cap process store [tA, tB]) [tA, tB]
        = runBatch cap process store [tA, tB] := by
  have hfA : (decide (tA.sha ∉ doneShas store)) = false := by simp [hA]
  have hfB : (decide (tB.sha ∉ doneShas store)) = true := by simp [hB]
  have hfilter : [tA, tB].filter (fun t => decide (t.sha ∉ doneShas store)) = [tB] := by
    simp [List.filter, hfA, hfB]
  have htake : ([tA, tB].filter fun t => decide (t.sha ∉ doneShas store)).take cap
      = [tB] := by
    rw [hfilter]
    exact List.take_of_length_le (by simp; omega)
  have hrun : runBatch cap process store [tA, tB] = store ++ (process tB).toList := by
    unfold runBatch
    rw [htake]
    cases hp : process tB <;> simp [List.filterMap, hp]
  refine ⟨htake, hrun, ?_, ?_⟩
  · rw [hrun]
    cases hp : process tB with
    | none => simpa [doneShas] using hnodup
    | some r =>
      have hsha := hproc tB r hp
      simp only [doneShas, List.map_append, Option.toList]
      rw [List.nodup_append]
      refine ⟨hnodup, by simp, ?_⟩
      simp [List.Disjoint, hsha]
      intro x hx hxx
      refine hB ?_
      simp only [doneShas]
      rw [← hxx]
      exact List.mem_map_of_mem _ hx
  · rw [hrun]
    cases hp : process tB with
    | none =>
      simp only [hp, Option.toList, List.append_nil]
      unfold runBatch
      rw [htake]
      simp [List.filterMap, hp]
    | some r =>
      have hsha := hproc tB r hp
      simp only [hp, Option.toList]
      unfold runBatch
      have hA2 : tA.sha ∈ doneShas (store ++ [r]) := by
        simp only [doneShas, List.map_append]
        exact List.mem_append_left _ hA
      have hB2 : tB.sha ∈ doneShas (store ++ [r]) := by
        simp [doneShas, hsha]
      have hf : [tA, tB].filter (fun t => decide (t.sha ∉ doneShas (store ++ [r]))) = [] := by
        simp [List.filter, hA2, hB2]
      rw [hf]
      simp

/-- Witness for `aggregation_exact`: one surviving pair; the persisted MI
mean is the survivor's own value. -/
theorem aggregation_exact_witness :
    (([(msHalDefined, msHalDefined)] : List (MetricSet × MetricSet)) ≠ [])
    ∧ (∃ out, buildSummary [(msHalDefined, msHalDefined)] = some out
        ∧ out.miB = (([(msHalDefined, msHalDefined)] :
              List (MetricSet × MetricSet)).map fun p => p.1.mi).sum
            / (([(msHalDefined, msHalDefined)] :
              List (MetricSet × MetricSet)).length : ℚ)) := by
  refine ⟨by simp, ?_⟩
  obtain ⟨out, hout, h1, _⟩ :=
    (aggregation_exact [(msHalDefined, msHalDefined)] (by simp)).2.2.1
  exact ⟨out, hout, h1⟩

/-- Witness for `resume_idempotent`: a one-row store containing commit "a", a
stream ["a", "b"], and a processor succeeding exactly on "b". -/
theorem resume_idempotent_witness :
    ((2 : ℕ) ≤ 30
      ∧ (⟨"a", 1⟩ : CommitTask).sha ∈ doneShas [⟨"a", junkSummary⟩]
      ∧ (⟨"b", 2⟩ : CommitTask).sha ∉ doneShas [⟨"a", junkSummary⟩]
      ∧ (doneShas [⟨"a", junkSummary⟩]).Nodup
      ∧ (∀ t r, (fun t : CommitTask =>
            if t.sha = "b" then some (⟨"b", junkSummary⟩ : StoreRow) else none) t = some r
          → r.sha = t.sha))
    ∧ runBatch 30
        (fun t => if t.sha = "b" then some (⟨"b", junkSummary⟩ : StoreRow) else none)
        [⟨"a", junkSummary⟩] [⟨"a", 1⟩, ⟨"b", 2⟩]
      = [⟨"a", junkSummary⟩]
        ++ ((fun t : CommitTask =>
              if t.sha = "b" then some (⟨"b", junkSummary⟩ : StoreRow) else none)
            ⟨"b", 2⟩).toList := by
  have hproc : ∀ t r, (fun t : CommitTask =>
      if t.sha = "b" then some (⟨"b", junkSummary⟩ : StoreRow) else none) t = some r
      → r.sha = t.sha := by
    intro t r h
    dsimp only at h
    by_cases hb : t.sha = "b"
    · rw [if_pos hb] at h
      injection h with h2
      rw [← h2]
      exact hb.symm
    · rw [if_neg hb] at h
      exact absurd h (by simp)
  refine ⟨⟨by norm_num, by simp [doneShas], by simp [doneShas], by simp [doneShas], hproc⟩, ?_⟩
  exact (resume_idempotent 30 _ [⟨"a", junkSummary⟩] ⟨"a", 1⟩ ⟨"b", 2⟩ (by norm_num)
    (by simp [doneShas]) (by simp [doneShas]) (by simp [doneShas]) hproc).2.1

theorem startsList_self_append (p l : List Char) : startsList p (p ++ l) = true := by
  induction p with
  | nil => rfl
  | cons c cs ih => simp [startsList, ih]

theorem hasOcc_of_starts (p t : List Char) (h : startsList p t = true) :
    hasOcc p t = true := by
  cases t with
  | nil => simpa [hasOcc] using h
  | cons c cs => simp [hasOcc, h]

theorem hasOcc_append_mid (p : List Char) :
    ∀ (pre l : List Char), hasOcc p (pre ++ (p ++ l)) = true := by
  intro pre
  induction pre with
  | nil =>
    intro l
    simp only [List.nil_append]
    exact hasOcc_of_starts _ _ (startsList_self_append p l)
  | cons c cs ih =>
    intro l
    simp [hasOcc, ih l]

theorem pyReplF_no_occ (pat rep : List Char) :
    ∀ (fuel : ℕ) (l : List Char), l.length ≤ fuel →
      hasOcc pat l = false → pyReplF pat rep fuel l = l := by
  intro fuel
  induction fuel with
  | zero =>
    intro l hl _
    cases l with
    | nil => rfl
    | cons c cs => simp at hl
  | succ f ih =>
    intro l hl hocc
    cases l with
    | nil => rfl
    | cons c cs =>
      have hsl : startsList pat (c :: cs) = false := by
        by_contra hc
        simp only [Bool.not_eq_false] at hc
        simp [hasOcc, hc] at hocc
      have hrest : hasOcc pat cs = false := by
        by_contra hc
        simp only [Bool.not_eq_false] at hc
        simp [hasOcc, hc] at hocc
      simp only [pyReplF, hsl]
      simp only [Bool.false_eq_true, and_false, if_false]
      rw [ih cs (by simpa using Nat.le_of_succ_le_succ hl) hrest]

theorem pyReplF_head (pat rep : List Char) (hne : pat ≠ []) :
    ∀ (fuel : ℕ) (l : List Char),
      pyReplF pat rep (fuel + 1) (pat ++ l)
        = rep ++ pyReplF pat rep fuel l := by
  intro fuel l
  cases hp : pat with
  | nil => exact absurd hp hne
  | cons c cs =>
    have hs : startsList (c :: cs) ((c :: cs) ++ l) = true := startsList_self_append _ _
    simp only [List.cons_append] at hs
    simp only [List.cons_append, pyReplF, ne_eq, reduceCtorEq, not_false_eq_true,
      true_and, hs, if_true, List.append_eq]
    congr 1
    have hd : (cs ++ l).drop ((c :: cs).length - 1) = l := by simp
    rw [hd]

theorem pyReplS_concat (pat rep rest : String) (hne : pat.data ≠ [])
    (hocc : hasOcc pat.data rest.data = false) :
    pyReplS pat rep (pat ++ rest) = rep ++ rest := by
  apply String.ext
  show pyRepl pat.data rep.data (pat.data ++ rest.data) = rep.data ++ rest.data
  unfold pyRepl
  have hlen : (pat.data ++ rest.data).length
      = (pat.data.length - 1 + rest.data.length) + 1 := by
    rw [List.length_append]
    have hpos : 0 < pat.data.length := List.length_pos.mpr hne
    omega
  rw [hlen, pyReplF_head pat.data rep.data hne _ rest.data,
    pyReplF_no_occ pat.data rep.data _ rest.data (by omega) hocc]

theorem sStarts_concat (pat rest : String) : sStarts pat (pat ++ rest) = true := by
  show startsList pat.data (pat.data ++ rest.data) = true
  exact startsList_self_append _ _

theorem sContains_api (rest : String) :
    sContains "api.github.com/repos" ("https://api.github.com/repos/" ++ rest) = true := by
  show hasOcc "api.github.com/repos".data
    ("https://api.github.com/repos/".data ++ rest.data) = true
  have hsplit : ("https://api.github.com/repos/").data
      = "https://".data ++ ("api.github.com/repos".data ++ "/".data) := by decide
  rw [hsplit, List.append_assoc, List.append_assoc]
  exact hasOcc_append_mid _ _ _

/-- **C8** (counterexample): with the credential absent (`GITHUB_PAT = ""`),
4_download_commits_2.py's unconditional substitution produces
`https://@github.com/...` — not the plain public web URL (which variant 1
does produce). -/
theorem auth_url_empty_credential :
    authUrl2 "" "https://api.github.com/repos/octocat/hello"
      = "https://@github.com/octocat/hello.git"
    ∧ authUrl2 "" "https://api.github.com/repos/octocat/hello"
      ≠ "https://github.com/octocat/hello.git"
    ∧ cloneUrl1 "" "https://api.github.com/repos/octocat/hello"
      = "https://github.com/octocat/hello.git" := by
  refine ⟨by decide, by decide, by decide⟩

/-- **C8** (amended): both variants canonicalize an API-style repository URL
`https://api.github.com/repos/<owner/repo>` to the web URL ending in `.git`;
4_download_commits.py embeds the credential only when it is nonempty and
yields the plain public URL when it is absent; 4_download_commits_2.py
substitutes the credential prefix unconditionally, so an absent credential
yields an URL with empty userinfo (`https://@github.com/...`). -/
theorem ensure_mirror_url_handling (rest tok : String)
    (h1 : hasOcc "https://api.github.com/repos/".data rest.data = false)
    (h2 : hasOcc "https://github.com/".data (rest ++ ".git").data = false)
    (htok : tok ≠ "") :
    canonicalUrl ("https://api.github.com/repos/" ++ rest)
      = "https://github.com/" ++ rest ++ ".git"
    ∧ cloneUrl1 "" ("https://api.github.com/repos/" ++ rest)
      = "https://github.com/" ++ rest ++ ".git"
    ∧ cloneUrl1 tok ("https://api.github.com/repos/" ++ rest)
      = ("https://" ++ tok ++ "@github.com/") ++ (rest ++ ".git")
    ∧ authUrl2 "" ("https://api.github.com/repos/" ++ rest)
      = ("https://" ++ "" ++ "@github.com/") ++ (rest ++ ".git") := by
  have hocc2 : hasOcc "https://github.com/".data (rest ++ ".git").data = false := h2
  have hcanon : canonicalUrl ("https://api.github.com/repos/" ++ rest)
      = ("https://github.com/" ++ rest) ++ ".git" := by
    unfold canonicalUrl
    rw [sContains_api rest]
    simp only [if_true]
    rw [pyReplS_concat "https://api.github.com/repos/" "https://github.com/" rest
      (by decide) h1]
  have hcanon2 : canonicalUrl ("https://api.github.com/repos/" ++ rest)
      = "https://github.com/" ++ (rest ++ ".git") := by
    rw [hcanon, String.append_assoc]
  refine ⟨hcanon, ?_, ?_, ?_⟩
  · unfold cloneUrl1
    simp only [ne_eq, not_true_eq_false, false_and, if_false]
    exact hcanon
  · unfold cloneUrl1
    rw [hcanon2]
    dsimp only
    rw [sStarts_concat]
    simp only [htok, ne_eq, not_false_eq_true, true_and, if_true]
    exact pyReplS_concat "https://github.com/" ("https://" ++ tok ++ "@github.com/")
      (rest ++ ".git") (by decide) hocc2
  · unfold authUrl2
    rw [hcanon2]
    dsimp only
    exact pyReplS_concat "https://github.com/" ("https://" ++ "" ++ "@github.com/")
      (rest ++ ".git") (by decide) hocc2

/-- Witness for `ensure_mirror_url_handling`: a concrete owner/repo path and
a nonempty token satisfy the hypotheses, and the canonicalization conclusion
holds there. -/
theorem ensure_mirror_url_witness :
    (hasOcc "https://api.github.com/repos/".data "octocat/hello".data = false
      ∧ hasOcc "https://github.com/".data ("octocat/hello" ++ ".git").data = false
      ∧ ("TOKEN" : String) ≠ "")
    ∧ canonicalUrl ("https://api.github.com/repos/" ++ "octocat/hello")
        = "https://github.com/" ++ "octocat/hello" ++ ".git" :=
  ⟨⟨by decide, by decide, by decide⟩,
    (ensure_mirror_url_handling "octocat/hello" "TOKEN" (by decide) (by decide)
      (by decide)).1⟩
